import Mathlib

/-!
Shallow embedding of fluke's HTTP/2 frame-header codec
(src/src/h2/parse.rs) and of the httpwg test-harness connection
(src/crates/httpwg/src/lib.rs), together with proofs about them.

Bytes are modelled as Nat (with explicit masking/`% 256` where the code
relies on byte width); byte strings as List Nat; the async reader loop as
a fuel-indexed state function over the list of read results the stream
delivers; panics and error returns as explicit outcomes.
-/

namespace Fluke

/-- A flag set over a u8, as used by enumflags2: a byte whose set bits all
lie inside the mask of the flag enum. Mirrors BitFlags of parse.rs. -/
abbrev BitFlags (mask : Nat) := {b : Nat // b &&& mask = b}

/-- Bits of DataFlags (parse.rs): Padded = 0x08, EndStream = 0x01. -/
def dataFlagsMask : Nat := 0x09

/-- Bits of HeadersFlags (parse.rs): Priority = 0x20, Padded = 0x08,
EndHeaders = 0x04, EndStream = 0x01. -/
def headersFlagsMask : Nat := 0x2D

/-- Bits of SettingsFlags (parse.rs): Ack = 0x01. -/
def settingsFlagsMask : Nat := 0x01

/-- Bits of PingFlags (parse.rs): Ack = 0x01. -/
def pingFlagsMask : Nat := 0x01

/-- enumflags2 from_bits_truncate: keep only the bits of the mask. -/
def BitFlags.truncate (mask bits : Nat) : BitFlags mask :=
  ⟨bits &&& mask, by rw [Nat.and_assoc, Nat.and_self]⟩

/-- EncodedFrameType of parse.rs: the raw (type, flags) byte pair of a
frame header. -/
structure EncodedFrameType where
  ty : Nat
  flags : Nat
deriving DecidableEq, Repr

/-- FrameType of parse.rs: typed flags for the various frame types. -/
inductive FrameType where
  | data (f : BitFlags dataFlagsMask)
  | headers (f : BitFlags headersFlagsMask)
  | priority
  | rstStream
  | settings (f : BitFlags settingsFlagsMask)
  | pushPromise
  | ping (f : BitFlags pingFlagsMask)
  | goAway
  | windowUpdate
  | continuation
  | unknown (ft : EncodedFrameType)
deriving DecidableEq

/-- FrameType::encode of parse.rs: known variants write their RawFrameType
code (0-9) and their flag bits (0 for flagless variants); Unknown writes
its stored pair unchanged. -/
def FrameType.encode : FrameType → EncodedFrameType
  | .data f => ⟨0, f.val⟩
  | .headers f => ⟨1, f.val⟩
  | .priority => ⟨2, 0⟩
  | .rstStream => ⟨3, 0⟩
  | .settings f => ⟨4, f.val⟩
  | .pushPromise => ⟨5, 0⟩
  | .ping f => ⟨6, f.val⟩
  | .goAway => ⟨7, 0⟩
  | .windowUpdate => ⟨8, 0⟩
  | .continuation => ⟨9, 0⟩
  | .unknown ft => ft

/-- FrameType::decode of parse.rs: RawFrameType::from_repr recognises the
codes 0-9; flag-carrying variants truncate the flags byte to their mask,
any other code yields Unknown with the pair kept as is. -/
def FrameType.decode (ft : EncodedFrameType) : FrameType :=
  match ft.ty with
  | 0 => .data (BitFlags.truncate dataFlagsMask ft.flags)
  | 1 => .headers (BitFlags.truncate headersFlagsMask ft.flags)
  | 2 => .priority
  | 3 => .rstStream
  | 4 => .settings (BitFlags.truncate settingsFlagsMask ft.flags)
  | 5 => .pushPromise
  | 6 => .ping (BitFlags.truncate pingFlagsMask ft.flags)
  | 7 => .goAway
  | 8 => .windowUpdate
  | 9 => .continuation
  | _ => .unknown ft

/-- The flag bits that decode keeps for each known raw type code 0-9
(flagless variants keep none). -/
def flagMaskOf : Nat → Nat
  | 0 => dataFlagsMask
  | 1 => headersFlagsMask
  | 4 => settingsFlagsMask
  | 6 => pingFlagsMask
  | _ => 0

/-- The flag bits a FrameType value carries (0 for flagless variants; for
Unknown, its stored flags byte). -/
def FrameType.flagBits : FrameType → Nat
  | .data f => f.val
  | .headers f => f.val
  | .settings f => f.val
  | .ping f => f.val
  | .unknown ft => ft.flags
  | _ => 0

/-- Whether a FrameType value is the Unknown fallback. -/
def FrameType.isUnknown : FrameType → Bool
  | .unknown _ => true
  | _ => false

/-- A FrameType value the decoder can actually produce: Unknown only ever
carries a raw type code outside 0-9. -/
def FrameType.wf : FrameType → Prop
  | .unknown ft => 10 ≤ ft.ty
  | _ => True

theorem encode_decode_eq (ty flags : Nat) :
    (FrameType.decode ⟨ty, flags⟩).encode
      = ⟨ty, if ty < 10 then flags &&& flagMaskOf ty else flags⟩ := by
  rcases ty with _ | _ | _ | _ | _ | _ | _ | _ | _ | _ | n
  all_goals
    simp [FrameType.decode, FrameType.encode, BitFlags.truncate, flagMaskOf]
  rw [if_neg (by omega)]

/-- C1 counterexample: decode of the raw pair (2, 1) (a PRIORITY frame
with a stray flag bit) re-encodes to (2, 0), not (2, 1). -/
theorem c1_counterexample :
    FrameType.encode (FrameType.decode ⟨2, 1⟩) ≠ ⟨2, 1⟩ := by decide

/-- C1 (amended): encoding the result of decode reproduces the raw type
byte always, and reproduces the raw flags byte masked to the variant's
meaningful bits when the raw type is a known code 0-9; for any raw type
outside 0-9 (the Unknown fallback) the pair is reproduced identically. -/
theorem c1_encode_decode_masked (ty flags : Nat) :
    (FrameType.decode ⟨ty, flags⟩).encode
      = ⟨ty, if ty < 10 then flags &&& flagMaskOf ty else flags⟩ :=
  encode_decode_eq ty flags

/-- C2 counterexample: the representable value Unknown(4, 0) encodes to
the raw pair (4, 0), which decodes to Settings(empty), not back to
Unknown(4, 0). -/
theorem c2_counterexample :
    FrameType.decode (FrameType.encode (.unknown ⟨4, 0⟩)) ≠ .unknown ⟨4, 0⟩ := by
  decide

/-- C2 (amended): decode is a left inverse of encode on every FrameType
value except Unknown values whose stored type code is a known code 0-9:
that is, on all values the decoder itself can produce. -/
theorem c2_decode_encode (x : FrameType) (h : x.wf) :
    FrameType.decode x.encode = x := by
  cases x with
  | data f =>
    obtain ⟨b, hb⟩ := f
    simpa [FrameType.encode, FrameType.decode, BitFlags.truncate] using hb
  | headers f =>
    obtain ⟨b, hb⟩ := f
    simpa [FrameType.encode, FrameType.decode, BitFlags.truncate] using hb
  | settings f =>
    obtain ⟨b, hb⟩ := f
    simpa [FrameType.encode, FrameType.decode, BitFlags.truncate] using hb
  | ping f =>
    obtain ⟨b, hb⟩ := f
    simpa [FrameType.encode, FrameType.decode, BitFlags.truncate] using hb
  | unknown ft =>
    obtain ⟨t, fl⟩ := ft
    simp only [FrameType.wf] at h
    rcases t with _ | _ | _ | _ | _ | _ | _ | _ | _ | _ | n
    all_goals first
      | omega
      | simp [FrameType.encode, FrameType.decode]
  | priority => simp [FrameType.encode, FrameType.decode]
  | rstStream => simp [FrameType.encode, FrameType.decode]
  | pushPromise => simp [FrameType.encode, FrameType.decode]
  | goAway => simp [FrameType.encode, FrameType.decode]
  | windowUpdate => simp [FrameType.encode, FrameType.decode]
  | continuation => simp [FrameType.encode, FrameType.decode]

/-- C2 witness: the amended round trip at the concrete values
Ping(Ack) and Unknown(255, 3). -/
theorem c2_decode_encode_witness :
    FrameType.decode (FrameType.encode (.ping ⟨1, by decide⟩))
        = FrameType.ping ⟨1, by decide⟩ ∧
      FrameType.decode (FrameType.encode (.unknown ⟨255, 3⟩))
        = FrameType.unknown ⟨255, 3⟩ :=
  ⟨c2_decode_encode _ trivial,
   c2_decode_encode _ (show (10 : Nat) ≤ 255 by decide)⟩

/-- C6: decode maps every raw type code 0-9 to a known (non-Unknown)
variant of that same code, whose carried flag bits are the raw flags byte
masked to the bits meaningful for that variant (unrecognized bits dropped,
not rejected), and maps every raw type code outside 0-9 to Unknown with
both bytes preserved exactly. -/
theorem c6_decode_spec (ty flags : Nat) :
    (ty < 10 →
      (FrameType.decode ⟨ty, flags⟩).isUnknown = false ∧
      (FrameType.decode ⟨ty, flags⟩).encode.ty = ty ∧
      (FrameType.decode ⟨ty, flags⟩).flagBits = flags &&& flagMaskOf ty) ∧
    (10 ≤ ty → FrameType.decode ⟨ty, flags⟩ = .unknown ⟨ty, flags⟩) := by
  rcases ty with _ | _ | _ | _ | _ | _ | _ | _ | _ | _ | n
  all_goals constructor
  all_goals intro h
  all_goals first
    | omega
    | simp [FrameType.decode, FrameType.encode, FrameType.isUnknown,
        FrameType.flagBits, BitFlags.truncate, flagMaskOf]

/-- C6 witness: the characterisation at the concrete raw pairs (1, 255)
and (255, 7). -/
theorem c6_decode_spec_witness :
    (FrameType.decode ⟨1, 255⟩).flagBits = 255 &&& flagMaskOf 1 ∧
      FrameType.decode ⟨255, 7⟩ = .unknown ⟨255, 7⟩ :=
  ⟨((c6_decode_spec 1 255).1 (by decide)).2.2,
   (c6_decode_spec 255 7).2 (by decide)⟩

/-- Frame of parse.rs: an HTTP/2 frame header. The stream id is the 31-bit
value taken after the reserved bit; len is the 24-bit payload length. -/
structure Frame where
  frameType : FrameType
  reserved : Nat
  streamId : Nat
  len : Nat
deriving DecidableEq

/-- Frame::new of parse.rs: reserved and len start at 0. -/
def Frame.new (frameType : FrameType) (streamId : Nat) : Frame :=
  { frameType, reserved := 0, streamId, len := 0 }

/-- Frame::with_len of parse.rs: replace the frame's length field. -/
def Frame.withLen (f : Frame) (len : Nat) : Frame := { f with len }

/-- Result of Frame::parse. The nom parsers used (streaming be_u24, be_u8
and a 1+31 bit split) either succeed once 9 bytes are available or report
Incomplete; they have no failure case on this grammar. -/
inductive ParseResult where
  | incomplete
  | done (rest : List Nat) (frame : Frame)
deriving DecidableEq

/-- Frame::parse of parse.rs: big-endian u24 length, the raw type and
flags bytes, then one reserved bit and a 31-bit stream id; consumes
exactly 9 bytes and leaves the rest. -/
def Frame.parse (i : List Nat) : ParseResult :=
  match i with
  | len2 :: len1 :: len0 :: ty :: flags :: s3 :: s2 :: s1 :: s0 :: rest =>
    .done rest
      { frameType := FrameType.decode ⟨ty, flags⟩
        reserved := s3 / 128
        streamId := (s3 % 128) * 16777216 + s2 * 65536 + s1 * 256 + s0
        len := len2 * 65536 + len1 * 256 + len0 }
  | _ => .incomplete

/-- An std::io::Error value, identified abstractly by a code. -/
structure IoError where
  code : Nat
deriving DecidableEq

/-- Ev of lib.rs: the events the reader loop can send on the channel. -/
inductive Ev where
  | frame (frame : Frame) (payload : List Nat)
  | ioError (error : IoError)
  | eof
deriving DecidableEq

/-- How the reader-loop future of Conn::new terminates. cleanExit is the
break out of the read loop followed by Ok(()); ioError is an Err return
propagated by a question-mark operator; panicked is a panic with the given
message; outOfFuel is a model artifact, reached only when the supplied
read results or fuel run out before the loop settles. -/
inductive Outcome where
  | cleanExit
  | ioError (e : IoError)
  | panicked (msg : String)
  | outOfFuel
deriving DecidableEq

/-- The result of one read_into call on the transport: either n bytes
appended to the buffer (n = 0 meaning end of stream) or an I/O error. -/
inductive ReadRes where
  | ok (bytes : List Nat)
  | err (e : IoError)
deriving DecidableEq

/-- The inner payload loop of Conn::new: while the buffer holds fewer than
frame_len bytes, read more; an I/O error propagates out, a zero-byte read
(end of stream) panics, because the buffer is then still short. Returns
the remaining read results and the buffer once it holds enough bytes. -/
def readPayload (reads : List ReadRes) (buf : List Nat) (frameLen : Nat) :
    (List ReadRes × List Nat) ⊕ Outcome :=
  if frameLen ≤ buf.length then .inl (reads, buf)
  else
    match reads with
    | [] => .inr .outOfFuel
    | .err e :: _ => .inr (.ioError e)
    | .ok bytes :: rest =>
      if bytes.isEmpty then
        .inr (.panicked "peer frame header, then incomplete payload, then hung up")
      else readPayload rest (buf ++ bytes) frameLen

/-- One iteration of the outer read loop of Conn::new: read once unless
EOF was seen (an error return ends the future, a zero-byte read sets the
EOF flag); stop cleanly when EOF with an empty buffer; otherwise parse a
frame header. An incomplete header at EOF panics, otherwise the loop
continues; a parsed header commits to reading frame.len payload bytes via
readPayload, after which the frame event is sent and the loop continues.
Returns the events sent on the channel in order, and the outcome. -/
def readerLoopStep
    (recurse : List ReadRes → List Nat → Bool → List Ev × Outcome)
    (reads : List ReadRes) (buf : List Nat) (eof : Bool) :
    List Ev × Outcome :=
  let read1 : (List ReadRes × List Nat × Bool) ⊕ Outcome :=
    if eof then .inl (reads, buf, true)
    else
      match reads with
      | [] => .inr .outOfFuel
      | .err e :: _ => .inr (.ioError e)
      | .ok bytes :: rest => .inl (rest, buf ++ bytes, bytes.isEmpty)
  match read1 with
  | .inr out => ([], out)
  | .inl (reads, buf, eof) =>
    if eof && buf.isEmpty then ([], .cleanExit)
    else
      match Frame.parse buf with
      | .incomplete =>
        if eof then
          ([], .panicked "peer sent incomplete frame header then hung up")
        else recurse reads buf eof
      | .done rest frame =>
        match readPayload reads rest frame.len with
        | .inr out => ([], out)
        | .inl (reads, buf) =>
          let payload := buf.take frame.len
          let next := recurse reads (buf.drop frame.len) eof
          (.frame frame payload :: next.1, next.2)

/-- The reader loop of Conn::new: iterate readerLoopStep, one fuel per
iteration of the outer read loop. -/
def readerLoop : Nat → List ReadRes → List Nat → Bool → List Ev × Outcome
  | 0, _, _, _ => ([], .outOfFuel)
  | fuel + 1, reads, buf, eof => readerLoopStep (readerLoop fuel) reads buf eof

theorem readPayload_length {frameLen : Nat} :
    ∀ {reads : List ReadRes} {buf : List Nat} {reads' : List ReadRes}
      {buf' : List Nat},
      readPayload reads buf frameLen = .inl (reads', buf') →
      frameLen ≤ buf'.length := by
  intro reads
  induction reads with
  | nil =>
    intro buf reads' buf' h
    unfold readPayload at h
    split at h
    · rename_i hle
      cases h
      exact hle
    · cases h
  | cons r rest ih =>
    intro buf reads' buf' h
    unfold readPayload at h
    split at h
    · rename_i hle
      cases h
      exact hle
    · cases r with
      | err e => simp at h
      | ok bytes =>
        simp only at h
        split at h
        · cases h
        · exact ih h

theorem readerLoop_events {fuel : Nat} :
    ∀ {reads : List ReadRes} {buf : List Nat} {eof : Bool} {ev : Ev},
      ev ∈ (readerLoop fuel reads buf eof).1 →
      ∃ f p, ev = Ev.frame f p ∧ p.length = f.len := by
  induction fuel with
  | zero =>
    intro reads buf eof ev h
    simp [readerLoop] at h
  | succ fuel ih =>
    intro reads buf eof ev h
    rw [readerLoop] at h
    simp only [readerLoopStep] at h
    split at h
    · simp at h
    · split at h
      · simp at h
      · split at h
        · split at h
          · simp at h
          · exact ih h
        · split at h
          · simp at h
          · simp only [List.mem_cons] at h
            rcases h with h | h
            · refine ⟨_, _, h, ?_⟩
              rw [List.length_take]
              exact Nat.min_eq_left (readPayload_length (by assumption))
            · exact ih h

/-- C3 counterexample: a run whose very first read fails with an I/O
error emits no event at all on the channel (in particular no IoError
event); the reader future just returns the error. -/
theorem c3_counterexample :
    readerLoop 1 [ReadRes.err ⟨7⟩] [] false = ([], Outcome.ioError ⟨7⟩) := by
  decide

/-- C3 (amended): an I/O failure returned by a read makes the reader loop
stop by returning that error, and no IoError event is ever emitted on the
event channel (the channel just closes when the reader future ends). -/
theorem c3_io_error_stops (fuel : Nat) (reads : List ReadRes) (buf : List Nat)
    (eof : Bool) (e : IoError) :
    Ev.ioError e ∉ (readerLoop fuel reads buf eof).1 ∧
      readerLoop (fuel + 1) (.err e :: reads) buf false = ([], .ioError e) := by
  constructor
  · intro hmem
    obtain ⟨f, p, hfp, -⟩ := readerLoop_events hmem
    cases hfp
  · rfl

/-- C3 witness: the amended statement at a concrete error run. -/
theorem c3_io_error_stops_witness :
    Ev.ioError ⟨7⟩ ∉ (readerLoop 1 [ReadRes.err ⟨7⟩] [] false).1 ∧
      readerLoop 2 [ReadRes.err ⟨9⟩] [] false = ([], .ioError ⟨9⟩) :=
  ⟨(c3_io_error_stops 1 [ReadRes.err ⟨7⟩] [] false ⟨7⟩).1,
   (c3_io_error_stops 1 [] [] false ⟨9⟩).2⟩

/-- C9: the reader loop never sends an Eof event: every emitted event is
a Frame event, and a clean end of stream on an empty buffer just breaks
out of the loop, closing the channel. -/
theorem c9_no_eof_event (fuel : Nat) (reads : List ReadRes) (buf : List Nat)
    (eof : Bool) :
    Ev.eof ∉ (readerLoop fuel reads buf eof).1 ∧
      readerLoop (fuel + 1) (.ok [] :: reads) [] false = ([], .cleanExit) := by
  constructor
  · intro hmem
    obtain ⟨f, p, hfp, -⟩ := readerLoop_events hmem
    cases hfp
  · rfl

/-- C9 witness: no Eof event and clean exit on a concrete run. -/
theorem c9_no_eof_event_witness :
    Ev.eof ∉ (readerLoop 2 [ReadRes.ok []] [] false).1 ∧
      readerLoop 1 [ReadRes.ok []] [] false = ([], .cleanExit) :=
  ⟨(c9_no_eof_event 2 [ReadRes.ok []] [] false).1,
   (c9_no_eof_event 0 [] [] false).2⟩

/-- A 9-byte DATA frame header (type 0, flags 0, stream 0) whose length
field is the 24-bit big-endian encoding of L. -/
def mkHeader (L : Nat) : List Nat :=
  [L / 65536 % 256, L / 256 % 256, L % 256, 0, 0, 0, 0, 0, 0]

/-- C5: a frame event always carries a payload of exactly the length the
frame header claimed (no short or partial delivery), and a parsed header
claiming L payload bytes followed by fewer than L bytes and then end of
stream makes the reader loop panic. -/
theorem c5_incomplete_payload (fuel : Nat) (reads : List ReadRes)
    (buf : List Nat) (eof : Bool) (f : Frame) (p : List Nat) (L : Nat)
    (partBytes : List Nat) (more : List ReadRes) :
    (Ev.frame f p ∈ (readerLoop fuel reads buf eof).1 → p.length = f.len) ∧
      (L < 16777216 → partBytes.length < L → partBytes ≠ [] →
        readerLoop (fuel + 1)
            (.ok (mkHeader L) :: .ok partBytes :: .ok [] :: more) [] false
          = ([], .panicked
              "peer frame header, then incomplete payload, then hung up")) := by
  constructor
  · intro hmem
    obtain ⟨f', p', hfp, hlen⟩ := readerLoop_events hmem
    cases hfp
    exact hlen
  · intro hL hlt hne
    have hlen : L / 65536 % 256 * 65536 + L / 256 % 256 * 256 + L % 256 = L := by
      omega
    have hL0 : 0 < L := Nat.lt_of_le_of_lt (Nat.zero_le _) hlt
    cases partBytes with
    | nil => exact absurd rfl hne
    | cons b bs =>
      rw [readerLoop]
      have h1 : ¬ (L ≤ 0) := by omega
      have h2 : ¬ (L ≤ bs.length + 1) := by
        simp only [List.length_cons] at hlt
        omega
      simp [readerLoopStep, mkHeader, Frame.parse, readPayload, hlen, h1, h2]

/-- C5 witness: a header claiming 5 payload bytes, then 3 bytes, then end
of stream, panics without emitting any event. -/
theorem c5_incomplete_payload_witness :
    readerLoop 1 [ReadRes.ok (mkHeader 5), ReadRes.ok [1, 2, 3], ReadRes.ok []]
        [] false
      = ([], .panicked
          "peer frame header, then incomplete payload, then hung up") :=
  (c5_incomplete_payload 0 [] [] false (Frame.new .goAway 0) [] 5 [1, 2, 3]
      []).2 (by decide) (by decide) (by decide)

/-- FrameT of lib.rs: a hollow variant of FrameType with no associated
data, used to expect a certain frame type. -/
inductive FrameT where
  | data
  | headers
  | priority
  | rstStream
  | settings
  | pushPromise
  | ping
  | goAway
  | windowUpdate
  | continuation
  | unknown
deriving DecidableEq

/-- The From FrameType impl for FrameT in lib.rs. -/
def FrameT.ofFrameType : FrameType → FrameT
  | .data _ => .data
  | .headers _ => .headers
  | .priority => .priority
  | .rstStream => .rstStream
  | .settings _ => .settings
  | .pushPromise => .pushPromise
  | .ping _ => .ping
  | .goAway => .goAway
  | .windowUpdate => .windowUpdate
  | .continuation => .continuation
  | .unknown _ => .unknown

/-- What one recv on the event channel yields before the deadline: an
event, or None because the channel closed. The deadline of
wait_for_frame is fixed once at entry, so the pre-deadline deliveries
form a finite list; when it is exhausted the next recv is resolved by
timeout_at timing out. -/
inductive RecvStep where
  | ev (e : Ev)
  | closed
deriving DecidableEq

/-- How wait_for_frame ends: a normal return of a frame and payload, or
one of its four panics. -/
inductive WaitResult where
  | returned (frame : Frame) (payload : List Nat)
  | fatal (msg : String)
deriving DecidableEq

/-- The timeout panic of wait_for_frame. -/
def timeoutMsg : String := "Timed out while waiting for expected frame types"

/-- Conn::wait_for_frame of lib.rs: receive events until a frame of an
expected kind arrives and is returned; a frame of another kind is only
remembered as last_frame; a closed channel, an IoError event, an Eof
event, or the deadline elapsing all panic. -/
def waitForFrame (types : List FrameT) (steps : List RecvStep)
    (lastFrame : Option Frame) : WaitResult :=
  match steps with
  | [] => .fatal timeoutMsg
  | .closed :: _ => .fatal "Expected a frame of the expected types"
  | .ev (.frame f p) :: rest =>
    if FrameT.ofFrameType f.frameType ∈ types then .returned f p
    else waitForFrame types rest (some f)
  | .ev (.ioError _) :: _ => .fatal "I/O error while waiting for frame"
  | .ev .eof :: _ => .fatal "EOF while waiting for frame"

theorem waitForFrame_returned {types : List FrameT} :
    ∀ {steps : List RecvStep} {lastFrame : Option Frame} {f : Frame}
      {p : List Nat},
      waitForFrame types steps lastFrame = .returned f p →
      FrameT.ofFrameType f.frameType ∈ types ∧
        RecvStep.ev (Ev.frame f p) ∈ steps := by
  intro steps
  induction steps with
  | nil =>
    intro lastFrame f p h
    cases h
  | cons s rest ih =>
    intro lastFrame f p h
    cases s with
    | closed => cases h
    | ev e =>
      cases e with
      | frame f' p' =>
        unfold waitForFrame at h
        split at h
        · cases h
          rename_i hmem
          exact ⟨hmem, List.mem_cons_self _ _⟩
        · obtain ⟨h1, h2⟩ := ih h
          exact ⟨h1, List.mem_cons_of_mem _ h2⟩
      | ioError e => cases h
      | eof => cases h

theorem ofFrameType_settings {ft : FrameType}
    (h : FrameT.ofFrameType ft = .settings) :
    ∃ fl, ft = FrameType.settings fl := by
  cases ft
  all_goals first
    | exact ⟨_, rfl⟩
    | simp [FrameT.ofFrameType] at h

/-- C7: against channel deliveries among which no frame of an expected
kind occurs, wait_for_frame never returns: it fails fatally, and when
every pre-deadline delivery is a frame event of an unexpected kind the
failure is exactly the timeout panic once the deadline elapses. -/
theorem c7_wait_times_out (types : List FrameT) (steps : List RecvStep)
    (lastFrame : Option Frame) :
    ((∀ f p, RecvStep.ev (Ev.frame f p) ∈ steps →
        FrameT.ofFrameType f.frameType ∉ types) →
      ∃ msg, waitForFrame types steps lastFrame = .fatal msg) ∧
      ((∀ s ∈ steps, ∃ f p, s = RecvStep.ev (Ev.frame f p) ∧
          FrameT.ofFrameType f.frameType ∉ types) →
        waitForFrame types steps lastFrame = .fatal timeoutMsg) := by
  constructor
  · intro hyp
    rcases hres : waitForFrame types steps lastFrame with ⟨f, p⟩ | m
    · obtain ⟨hmem, hin⟩ := waitForFrame_returned hres
      exact absurd hmem (hyp f p hin)
    · exact ⟨m, rfl⟩
  · intro hyp
    induction steps generalizing lastFrame with
    | nil => rfl
    | cons s rest ih =>
      obtain ⟨f, p, rfl, hnot⟩ := hyp s (List.mem_cons_self _ _)
      unfold waitForFrame
      rw [if_neg hnot]
      exact ih (some f) (fun s hs => hyp s (List.mem_cons_of_mem _ hs))

/-- A PING frame on the connection stream, used as an unexpected frame. -/
def pingFrame : Frame := Frame.new (.ping ⟨0, by decide⟩) 0

/-- C7 witness: waiting for SETTINGS against a channel that only delivers
a PING frame before the deadline times out fatally. -/
theorem c7_wait_times_out_witness :
    (∃ msg, waitForFrame [FrameT.settings]
        [RecvStep.ev (Ev.frame pingFrame [])] none = .fatal msg) ∧
      waitForFrame [FrameT.settings] [RecvStep.ev (Ev.frame pingFrame [])]
          none = .fatal timeoutMsg :=
  ⟨(c7_wait_times_out _ _ _).1 (by
      intro f p hmem
      simp only [List.mem_singleton, RecvStep.ev.injEq, Ev.frame.injEq] at hmem
      obtain ⟨rfl, rfl⟩ := hmem
      decide),
   (c7_wait_times_out _ _ _).2 (by
      intro s hs
      simp only [List.mem_singleton] at hs
      exact ⟨pingFrame, [], hs, by decide⟩)⟩

/-- C10: wait_for_frame only ever returns a frame whose hollow kind is in
the expected set, and in particular a frame returned from a wait for
SETTINGS, as in handshake, is always the Settings variant, so the
unreachable match arms of handshake never execute. -/
theorem c10_wait_returns_expected (types : List FrameT)
    (steps : List RecvStep) (lastFrame : Option Frame) (f : Frame)
    (p : List Nat) :
    (waitForFrame types steps lastFrame = .returned f p →
      FrameT.ofFrameType f.frameType ∈ types) ∧
      (waitForFrame [FrameT.settings] steps lastFrame = .returned f p →
        ∃ fl, f.frameType = FrameType.settings fl) := by
  constructor
  · intro h
    exact (waitForFrame_returned h).1
  · intro h
    have hmem := (waitForFrame_returned h).1
    simp only [List.mem_singleton] at hmem
    exact ofFrameType_settings hmem

/-- A SETTINGS frame without the ACK flag, on the connection stream. -/
def plainSettingsFrame : Frame := Frame.new (.settings ⟨0, by decide⟩) 0

/-- A SETTINGS frame with the ACK flag, on the connection stream. -/
def ackSettingsFrame : Frame := Frame.new (.settings ⟨1, by decide⟩) 0

/-- C10 witness: the guarantee at a concrete wait that returns a SETTINGS
frame. -/
theorem c10_wait_returns_expected_witness :
    FrameT.ofFrameType plainSettingsFrame.frameType ∈ [FrameT.settings] ∧
      ∃ fl, plainSettingsFrame.frameType = FrameType.settings fl :=
  ⟨(c10_wait_returns_expected [FrameT.settings]
      [RecvStep.ev (Ev.frame plainSettingsFrame [])] none plainSettingsFrame
      []).1 (by decide),
   (c10_wait_returns_expected [FrameT.settings]
      [RecvStep.ev (Ev.frame plainSettingsFrame [])] none plainSettingsFrame
      []).2 (by decide)⟩

/-- The panic raised in handshake when a received SETTINGS frame has the
ACK flag set, identical at both checks. -/
def ackPanicMsg : String :=
  "RFC 9113 Section 3.4: server sent a settings frame but it had ACK set"

/-- The match on frame.frame_type performed after each
wait_for_frame(Settings) in Conn::handshake: a Settings frame whose flags
contain Ack panics, a Settings frame without Ack passes, and any other
variant is the unreachable arm. -/
def checkSettingsFrame (frame : Frame) : Option String :=
  match frame.frameType with
  | .settings flags =>
    if flags.val &&& 1 = 1 then some ackPanicMsg else none
  | _ => some "internal error: entered unreachable code"

/-- The result of Conn::handshake. -/
inductive HandshakeResult where
  | ok
  | fatal (msg : String)
deriving DecidableEq

/-- Conn::handshake of lib.rs, restricted to its two channel waits and
the checks on the received frames. The writes it performs (client
preface, initial SETTINGS frame, SETTINGS ACK frame) do not influence
those checks and are elided; steps1 and steps2 are the channel
deliveries consumed by the first and the second wait_for_frame(Settings)
call. -/
def handshake (steps1 steps2 : List RecvStep) : HandshakeResult :=
  match waitForFrame [FrameT.settings] steps1 none with
  | .fatal m => .fatal m
  | .returned f1 _ =>
    match checkSettingsFrame f1 with
    | some m => .fatal m
    | none =>
      match waitForFrame [FrameT.settings] steps2 none with
      | .fatal m => .fatal m
      | .returned f2 _ =>
        match checkSettingsFrame f2 with
        | some m => .fatal m
        | none => .ok

/-- The frame is a SETTINGS frame carrying the ACK flag. -/
def Frame.hasAck (f : Frame) : Prop :=
  ∃ fl, f.frameType = FrameType.settings fl ∧ fl.val &&& 1 = 1

/-- C4: handshake fails fatally when the first awaited SETTINGS frame
carries the ACK flag, and it applies the identical check to the second
awaited SETTINGS frame: if the first passes and the second carries ACK,
it fails fatally with the same panic. -/
theorem c4_handshake_ack_checks (steps1 steps2 : List RecvStep)
    (f1 : Frame) (p1 : List Nat) :
    (waitForFrame [FrameT.settings] steps1 none = .returned f1 p1 →
      f1.hasAck → handshake steps1 steps2 = .fatal ackPanicMsg) ∧
      (∀ f2 p2,
        waitForFrame [FrameT.settings] steps1 none = .returned f1 p1 →
        ¬ f1.hasAck →
        waitForFrame [FrameT.settings] steps2 none = .returned f2 p2 →
        f2.hasAck → handshake steps1 steps2 = .fatal ackPanicMsg) := by
  constructor
  · intro hw1 hack
    obtain ⟨fl, hft, hbit⟩ := hack
    simp [handshake, hw1, checkSettingsFrame, hft, hbit]
  · intro f2 p2 hw1 hnack hw2 hack2
    have hmem := (waitForFrame_returned hw1).1
    simp only [List.mem_singleton] at hmem
    obtain ⟨fl, hft⟩ := ofFrameType_settings hmem
    have hbit : ¬ (fl.val &&& 1 = 1) := fun hb => hnack ⟨fl, hft, hb⟩
    obtain ⟨fl2, hft2, hbit2⟩ := hack2
    have hbitm : ¬ ((fl : Nat) % 2 = 1) := by rwa [Nat.and_one_is_mod] at hbit
    have hbitm2 : (fl2 : Nat) % 2 = 1 := by rwa [Nat.and_one_is_mod] at hbit2
    simp [handshake, hw1, hw2, checkSettingsFrame, hft, hft2, hbit, hbit2,
      hbitm, hbitm2]

/-- C4 witness: a first SETTINGS frame with ACK panics, and a clean first
SETTINGS frame followed by a second SETTINGS frame with ACK panics with
the same message. -/
theorem c4_handshake_ack_checks_witness :
    handshake [RecvStep.ev (Ev.frame ackSettingsFrame [])] []
        = .fatal ackPanicMsg ∧
      handshake [RecvStep.ev (Ev.frame plainSettingsFrame [])]
          [RecvStep.ev (Ev.frame ackSettingsFrame [])]
        = .fatal ackPanicMsg :=
  ⟨(c4_handshake_ack_checks _ [] ackSettingsFrame []).1 (by decide)
      ⟨⟨1, by decide⟩, rfl, by decide⟩,
   (c4_handshake_ack_checks _ _ plainSettingsFrame []).2 ackSettingsFrame []
      (by decide)
      (by
        rintro ⟨fl, hft, hbit⟩
        cases hft
        exact absurd hbit (by decide))
      (by decide)
      ⟨⟨1, by decide⟩, rfl, by decide⟩⟩

/-- Big-endian byte encoding of a 24-bit value, as written by write_u24
in Frame::write. -/
def u24be (n : Nat) : List Nat := [n / 65536 % 256, n / 256 % 256, n % 256]

/-- Big-endian byte encoding of a 32-bit value. -/
def u32be (n : Nat) : List Nat :=
  [n / 16777216 % 256, n / 65536 % 256, n / 256 % 256, n % 256]

/-- The 9-byte header bytes written for a frame (Frame::write of
parse.rs, the same layout the codec uses in write_frame): u24 length,
the encoded type and flags bytes, u32 stream id (reserved bit never
written). -/
def Frame.writeHeader (f : Frame) : List Nat :=
  u24be f.len ++ [f.frameType.encode.ty, f.frameType.encode.flags]
    ++ u32be f.streamId

/-- Conn::write_frame of lib.rs: replace the header's length field with
the payload's byte length, then write the 9-byte header followed by the
payload. -/
def writeFrame (frame : Frame) (payload : List Nat) : List Nat × List Nat :=
  ((frame.withLen payload.length).writeHeader, payload)

/-- C8: the length field of the 9-byte header actually written by
write_frame is the byte length of the payload written with it, whatever
length the header carried before. -/
theorem c8_write_frame_len (frame : Frame) (payload : List Nat)
    (h : payload.length < 16777216) :
    ∃ a b c rest, (writeFrame frame payload).1 = a :: b :: c :: rest ∧
      a * 65536 + b * 256 + c = payload.length ∧
      (writeFrame frame payload).1.length = 9 ∧
      (writeFrame frame payload).2 = payload := by
  refine ⟨_, _, _, _, rfl, ?_, rfl, rfl⟩
  show payload.length / 65536 % 256 * 65536 + payload.length / 256 % 256 * 256
      + payload.length % 256 = payload.length
  omega

/-- C8 witness: a header previously carrying length 99 is written with
length 2 for a 2-byte payload. -/
theorem c8_write_frame_len_witness :
    ∃ a b c rest,
      (writeFrame ((Frame.new .goAway 5).withLen 99) [7, 8]).1
          = a :: b :: c :: rest ∧
        a * 65536 + b * 256 + c = ([7, 8] : List Nat).length ∧
        (writeFrame ((Frame.new .goAway 5).withLen 99) [7, 8]).1.length = 9 ∧
        (writeFrame ((Frame.new .goAway 5).withLen 99) [7, 8]).2 = [7, 8] :=
  c8_write_frame_len _ _ (by decide)

end Fluke
